import Mathlib

/-! Verification of the LazyTool data layer (src/lazytool/data.py).

Modelling conventions:
* ISO-8601 timestamps at second precision compare lexicographically exactly as
  chronologically, so timestamps are modelled as integers (seconds since an
  arbitrary epoch).  Calendar days are modelled as integers (day index); day d
  spans the timestamps 86400*d .. 86400*d + 86399, and the ISO date string of
  day d is order-isomorphic to d.
* A Python dict value that may be key-absent or present-but-null is modelled as
  Option (Option _): none = key absent, some none = key present and null.
* Durations (Python floats obtained by dividing an integral number of seconds
  by 60.0) are modelled as rationals; every value the claims compare is
  exactly representable.
* Mutating methods of DataManager are modelled as pure functions from the
  relevant collection to the new collection; datetime.now() / date.today() /
  uuid ids become explicit parameters.  The _save side effect is irrelevant to
  the claims and is dropped.
-/

namespace LazyTool

/-- A Python loop "for x in xs: if p(x): x := f(x); break" — modifies the
first element satisfying p, leaves the rest untouched. -/
def modifyFirst (p : α → Bool) (f : α → α) : List α → List α
  | [] => []
  | x :: xs => if p x then f x :: xs else x :: modifyFirst p f xs

/- ── Todos (data.py lines 82-160) ──────────────────────────────────── -/

structure Todo where
  id : String
  text : String
  done : Bool
  priority : String
  created_at : Int
  /-- none = no "done_at" key in the dict; some none = explicit null. -/
  done_at : Option (Option Int)
deriving Repr, DecidableEq

/-- data.py add_todo: appends a fresh pending todo; note the created dict has
no "done_at" key at all. -/
def add_todo (newId : String) (now : Int) (text : String) (priority : String)
    (todos : List Todo) : List Todo :=
  todos ++ [{ id := newId, text := text, done := false, priority := priority,
              created_at := now, done_at := none }]

/-- data.py toggle_todo: flips done on the first todo with the given id and
sets done_at to now (if now done) or to explicit null (if now pending). -/
def toggle_todo (now : Int) (todo_id : String) (todos : List Todo) : List Todo :=
  modifyFirst (fun t => t.id == todo_id)
    (fun t =>
      let d := !t.done
      { t with done := d, done_at := if d then some (some now) else some none })
    todos

/-- data.py edit_todo. -/
def edit_todo (todo_id : String) (text : String) (todos : List Todo) : List Todo :=
  modifyFirst (fun t => t.id == todo_id) (fun t => { t with text := text }) todos

def priorities : List String := ["low", "medium", "high"]

/-- data.py cycle_priority: advances the priority one step in the cyclic order
low → medium → high → low.  (Python raises ValueError on a priority outside
the list; that is unreachable for app-created todos, modelled here by the
getD defaults.) -/
def cycle_priority (todo_id : String) (todos : List Todo) : List Todo :=
  modifyFirst (fun t => t.id == todo_id)
    (fun t =>
      let idx := priorities.indexOf t.priority
      { t with priority := (priorities.getD ((idx + 1) % priorities.length) "medium") })
    todos

/-- data.py delete_todo: list comprehension keeping every other id. -/
def delete_todo (todo_id : String) (todos : List Todo) : List Todo :=
  todos.filter (fun t => t.id != todo_id)

/-- PRIORITY_ORDER.get(p, 1) with PRIORITY_ORDER = high 0, medium 1, low 2. -/
def priority_order (p : String) : Nat :=
  if p == "high" then 0 else if p == "medium" then 1 else if p == "low" then 2 else 1

/-- The pending sort key comparison: Python tuple order on
(priority_order, created_at). -/
def pending_le (a b : Todo) : Bool :=
  decide (priority_order a.priority < priority_order b.priority ∨
    (priority_order a.priority = priority_order b.priority ∧
      a.created_at ≤ b.created_at))

/-- t.get("done_at", t.get("created_at", "")): falls back to created_at only
when the "done_at" KEY is absent; an explicit null stays null. -/
def done_key (t : Todo) : Option Int :=
  t.done_at.getD (some t.created_at)

/-- Comparison of two done-sort keys.  Python would raise TypeError comparing
null with a timestamp; that case is unreachable for well-formed data (a done
todo always carries a timestamp, see the C4 invariant), so the choice made
for it here is immaterial. -/
def opt_le (x y : Option Int) : Bool :=
  match x, y with
  | some a, some b => decide (a ≤ b)
  | none, _ => true
  | some _, none => false

/-- data.py get_sorted_todos: pending first (stable-sorted by priority rank
then creation time, ascending), then done (stable-sorted by done_at
descending, created_at when the key is absent). -/
def get_sorted_todos (todos : List Todo) : List Todo :=
  let pending := todos.filter (fun t => !t.done)
  let don := todos.filter (fun t => t.done)
  pending.mergeSort pending_le ++
    don.mergeSort (fun a b => opt_le (done_key b) (done_key a))

/-- s < cutoff on the purge key; Python would raise TypeError on null
(unreachable: the key is only read when done is true, and a done todo always
has a timestamp). -/
def opt_lt (x : Option Int) (c : Int) : Bool :=
  match x with
  | some a => decide (a < c)
  | none => false

/-- data.py purge_old_done_todos: with purge window w (todo_purge_days),
returns the surviving todos plus the number deleted.  cutoff is now minus w
days; a done todo is deleted when its key is strictly below the cutoff. -/
def purge_old_done_todos (now : Int) (purge_days : Int) (todos : List Todo) :
    List Todo × Nat :=
  if purge_days ≤ 0 then (todos, 0)
  else
    let cutoff := now - 86400 * purge_days
    let kept := todos.filter (fun t => !(t.done && opt_lt (done_key t) cutoff))
    (kept, todos.length - kept.length)

/- ── Journal (data.py lines 162-187) ───────────────────────────────── -/

structure JournalEntry where
  id : String
  content : String
  date : Int
  created_at : Int
deriving Repr, DecidableEq

def add_journal_entry (newId : String) (now : Int) (today : Int) (content : String)
    (journal : List JournalEntry) : List JournalEntry :=
  journal ++ [{ id := newId, content := content, date := today, created_at := now }]

def edit_journal_entry (entry_id : String) (content : String)
    (journal : List JournalEntry) : List JournalEntry :=
  modifyFirst (fun e => e.id == entry_id) (fun e => { e with content := content }) journal

def delete_journal_entry (entry_id : String)
    (journal : List JournalEntry) : List JournalEntry :=
  journal.filter (fun e => e.id != entry_id)

/- ── Moods (data.py lines 189-217) ─────────────────────────────────── -/

structure Mood where
  id : String
  mood : String
  note : String
  date : Int
  created_at : Int
deriving Repr, DecidableEq

def delete_mood (mood_id : String) (moods : List Mood) : List Mood :=
  moods.filter (fun m => m.id != mood_id)

/- ── Goals (data.py lines 219-306) ─────────────────────────────────── -/

structure Goal where
  id : String
  title : String
  description : String
  /-- check_in_goal backfills a missing "check_ins" key to []; the field is
  therefore modelled as always present. -/
  check_ins : List Int
  created_at : Int
deriving Repr, DecidableEq

def add_goal (newId : String) (now : Int) (title : String) (description : String)
    (goals : List Goal) : List Goal :=
  goals ++ [{ id := newId, title := title, description := description,
              check_ins := [], created_at := now }]

def edit_goal (goal_id : String) (otitle odesc : Option String)
    (goals : List Goal) : List Goal :=
  modifyFirst (fun g => g.id == goal_id)
    (fun g =>
      let g := match otitle with | some t => { g with title := t } | none => g
      match odesc with | some d => { g with description := d } | none => g)
    goals

def delete_goal (goal_id : String) (goals : List Goal) : List Goal :=
  goals.filter (fun g => g.id != goal_id)

/-- data.py check_in_goal: on the first goal with the given id, toggles
membership of day in check_ins (Python list.remove = erase first occurrence;
insert = append then stable ascending sort) and returns the resulting
membership; returns false leaving everything unchanged when no goal matches. -/
def check_in_goal (goal_id : String) (day : Int) : List Goal → Bool × List Goal
  | [] => (false, [])
  | g :: gs =>
    if g.id == goal_id then
      if day ∈ g.check_ins then
        (false, { g with check_ins := g.check_ins.erase day } :: gs)
      else
        (true, { g with check_ins :=
          (g.check_ins ++ [day]).mergeSort (fun a b => decide (a ≤ b)) } :: gs)
    else
      let r := check_in_goal goal_id day gs
      (r.1, g :: r.2)

/-- The while loop of get_goal_streak: count consecutive days present in
check_ins walking backward from d.  Fuel-indexed; get_goal_streak passes
enough fuel for the count to be exact (see streak_walk_spec). -/
def streak_walk (check_ins : List Int) : Int → Nat → Nat
  | _, 0 => 0
  | d, fuel + 1 =>
    if d ∈ check_ins then streak_walk check_ins (d - 1) fuel + 1 else 0

/-- data.py get_goal_streak: 0 when neither today nor today-1 is checked in;
otherwise walks backward from today (or today-1) counting consecutive
checked-in days.  Python set membership on set(check_ins) equals list
membership.  The walk terminates because check_ins is finite; the fuel
check_ins.dedup.length + 1 is provably never exhausted. -/
def get_goal_streak (today : Int) (check_ins : List Int) : Nat :=
  if check_ins.isEmpty then 0
  else
    let d := if today ∈ check_ins then today else today - 1
    if d ∈ check_ins then
      streak_walk check_ins d (check_ins.dedup.length + 1)
    else 0

/- ── Timeline (data.py lines 331-447) ──────────────────────────────── -/

structure Event where
  id : String
  name : String
  /-- the calendar day the event originated on -/
  date : Int
  start_time : Int
  /-- none = null end_time = still-active event -/
  end_time : Option Int
deriving Repr, DecidableEq

/-- data.py get_active_event: the first event whose end_time is null. -/
def get_active_event (timeline : List Event) : Option Event :=
  timeline.find? (fun ev => ev.end_time.isNone)

/-- data.py end_event: sets end_time to now on the first event with the id. -/
def end_event (now : Int) (event_id : String) (timeline : List Event) : List Event :=
  modifyFirst (fun ev => ev.id == event_id)
    (fun ev => { ev with end_time := some now }) timeline

/-- data.py start_event: ends the active event (if any) first, then appends a
fresh event with end_time null. -/
def start_event (now : Int) (today : Int) (newId : String) (name : String)
    (timeline : List Event) : List Event :=
  let tl :=
    match get_active_event timeline with
    | some active => end_event now active.id timeline
    | none => timeline
  tl ++ [{ id := newId, name := name, date := today, start_time := now,
           end_time := none }]

/-- An event record returned by get_events_for_date: a copy of the event plus
the _day_start / _day_end / _is_spillover annotations. -/
structure AnnEvent where
  ev : Event
  day_start : Int
  day_end : Int
  is_spillover : Bool
deriving Repr, DecidableEq

/-- ev_end in get_events_for_date (and end in get_event_duration_minutes):
the end_time when set, the current time for the still-active event. -/
def effective_end (now : Int) (ev : Event) : Int :=
  match ev.end_time with | some e => e | none => now

/-- day_start_dt: the target day at 00:00:00. -/
def day_start_dt (d : Int) : Int := 86400 * d

/-- day_end_dt: the target day at 23:59:59. -/
def day_end_dt (d : Int) : Int := 86400 * d + 86399

/-- The annotated copy built for an overlapping event: start/end clamped to
the day (the day end boundary made inclusive by adding one second) and the
spillover flag (origin date differs from the target day). -/
def clamp_event (now target_date : Int) (ev : Event) : AnnEvent :=
  { ev := ev,
    day_start := max ev.start_time (day_start_dt target_date),
    day_end := min (effective_end now ev) (day_end_dt target_date + 1),
    is_spillover := ev.date != target_date }

/-- data.py get_events_for_date: keeps every event overlapping the target day
(skip when effective end ≤ day start 00:00:00 or start > day end 23:59:59),
each annotated by clamp_event.  The try/except around timestamp parsing
cannot fire in this model, where timestamps are already structured. -/
def get_events_for_date (now : Int) (target_date : Int)
    (timeline : List Event) : List AnnEvent :=
  timeline.filterMap (fun ev =>
    if effective_end now ev ≤ day_start_dt target_date ∨
        ev.start_time > day_end_dt target_date then none
    else some (clamp_event now target_date ev))

/-- data.py get_event_duration_minutes: full unclamped span in minutes, using
now when end_time is null. -/
def get_event_duration_minutes (now : Int) (ev : Event) : ℚ :=
  ((effective_end now ev - ev.start_time : Int) : ℚ) / 60

/-- data.py get_event_day_duration_minutes on a record carrying the clamp
keys (every record returned by get_events_for_date does; the source falls
back to the full duration only when the keys are missing). -/
def get_event_day_duration_minutes (a : AnnEvent) : ℚ :=
  ((a.day_end - a.day_start : Int) : ℚ) / 60

def delete_event (event_id : String) (timeline : List Event) : List Event :=
  timeline.filter (fun ev => ev.id != event_id)

/-- data.py edit_event_time: overwrites start_time and/or end_time on the
first event with the id; a parameter left as none means "do not change", so
this operation can never null out end_time. -/
def edit_event_time (event_id : String) (ostart oend : Option Int)
    (timeline : List Event) : List Event :=
  modifyFirst (fun ev => ev.id == event_id)
    (fun ev =>
      let ev := match ostart with | some s => { ev with start_time := s } | none => ev
      match oend with | some e => { ev with end_time := some e } | none => ev)
    timeline

/- ── Derived notions used by the claims ────────────────────────────── -/

/-- Number of active (end_time = null) events in the timeline. -/
def count_active (timeline : List Event) : Nat :=
  timeline.countP (fun ev => ev.end_time.isNone)

/-- done_at is non-null: the "done_at" key is present and not null. -/
def done_at_nonnull (t : Todo) : Bool :=
  match t.done_at with
  | some (some _) => true
  | _ => false

/-- The public operations that touch the todo collection. -/
inductive TodoOp where
  | add (newId : String) (now : Int) (text priority : String)
  | toggle (now : Int) (todo_id : String)
  | edit (todo_id text : String)
  | cycle (todo_id : String)
  | del (todo_id : String)
  | purge (now purge_days : Int)
deriving Repr

/-- One public operation applied to the todo collection. -/
def todo_step (todos : List Todo) : TodoOp → List Todo
  | .add newId now text priority => add_todo newId now text priority todos
  | .toggle now todo_id => toggle_todo now todo_id todos
  | .edit todo_id text => edit_todo todo_id text todos
  | .cycle todo_id => cycle_priority todo_id todos
  | .del todo_id => delete_todo todo_id todos
  | .purge now purge_days => (purge_old_done_todos now purge_days todos).1

/-- The todo collection reached from a fresh document (empty list) by a
sequence of public operations. -/
def todo_run (ops : List TodoOp) : List Todo :=
  ops.foldl todo_step []

/- ── Concrete fixtures used by claim instances ─────────────────────── -/

/-- An active event started exactly at midnight of day 0. -/
def ev_midnight : Event :=
  { id := "a", name := "x", date := 0, start_time := 0, end_time := none }

/-- A closed one-hour event on day 0 (01:00:00 to 02:00:00). -/
def ev_hour : Event :=
  { id := "a", name := "x", date := 0, start_time := 3600, end_time := some 7200 }

/-- The cross-midnight example event of the spec: starts 2026-02-20
22:00:00, ends 2026-02-21 03:00:00 (2026-02-20 is epoch day 20504). -/
def ev_cross : Event :=
  { id := "e", name := "w", date := 20504,
    start_time := 86400 * 20504 + 79200,
    end_time := some (86400 * 20505 + 10800) }

/-- ev_cross as returned for its origin day 2026-02-20: clamped end exactly
at the next midnight, not a spillover. -/
def ann_cross_day1 : AnnEvent :=
  { ev := ev_cross, day_start := 86400 * 20504 + 79200,
    day_end := 86400 * 20505, is_spillover := false }

/-- ev_cross as returned for 2026-02-21: clamped start exactly at midnight,
spillover. -/
def ann_cross_day2 : AnnEvent :=
  { ev := ev_cross, day_start := 86400 * 20505,
    day_end := 86400 * 20505 + 10800, is_spillover := true }

/-- A done todo completed 10 days before the reference time 1000000. -/
def todo_old_done : Todo :=
  { id := "t1", text := "old", done := true, priority := "medium",
    created_at := 1000000 - 864000, done_at := some (some (1000000 - 864000)) }

/-- A done todo completed 1 day before the reference time 1000000. -/
def todo_new_done : Todo :=
  { id := "t2", text := "new", done := true, priority := "medium",
    created_at := 1000000 - 86400, done_at := some (some (1000000 - 86400)) }

/-- A pending todo of arbitrary age. -/
def todo_pending_old : Todo :=
  { id := "t3", text := "pend", done := false, priority := "low",
    created_at := 0, done_at := none }

/-- A goal with no check-ins yet. -/
def goal_a : Goal :=
  { id := "g1", title := "t", description := "", check_ins := [],
    created_at := 0 }

/-- A goal already checked in on day 5. -/
def goal_b : Goal :=
  { id := "g2", title := "t2", description := "", check_ins := [5],
    created_at := 0 }

/-- A journal entry fixture. -/
def journal_a : JournalEntry :=
  { id := "j1", content := "c", date := 0, created_at := 0 }

/-- A mood fixture. -/
def mood_a : Mood :=
  { id := "m1", mood := "good", note := "", date := 0, created_at := 0 }

/- ════════════════════════ Theorems ════════════════════════ -/

lemma modifyFirst_cons (p : α → Bool) (f : α → α) (x : α) (xs : List α) :
    modifyFirst p f (x :: xs) =
      if p x then f x :: xs else x :: modifyFirst p f xs := rfl

lemma modifyFirst_eq_self {p : α → Bool} {f : α → α} {l : List α}
    (h : ∀ x ∈ l, p x = false) : modifyFirst p f l = l := by
  induction l with
  | nil => rfl
  | cons x xs ih =>
    have hx := h x (by simp)
    have hxs : ∀ y ∈ xs, p y = false := fun y hy => h y (by simp [hy])
    simp [modifyFirst_cons, hx, ih hxs]

lemma mem_modifyFirst (p : α → Bool) (f : α → α) (l : List α) :
    ∀ y ∈ modifyFirst p f l, y ∈ l ∨ ∃ x ∈ l, p x = true ∧ y = f x := by
  induction l with
  | nil => intro y hy; simp [modifyFirst] at hy
  | cons x xs ih =>
    intro y hy
    rw [modifyFirst_cons] at hy
    by_cases hx : p x = true
    · rw [if_pos hx] at hy
      rcases List.mem_cons.mp hy with h | h
      · exact Or.inr ⟨x, List.mem_cons_self x xs, hx, h⟩
      · exact Or.inl (List.mem_cons_of_mem x h)
    · rw [if_neg hx] at hy
      rcases List.mem_cons.mp hy with h | h
      · subst h; exact Or.inl (List.mem_cons_self _ xs)
      · rcases ih y h with h2 | ⟨z, hz, hpz, hyz⟩
        · exact Or.inl (List.mem_cons_of_mem x h2)
        · exact Or.inr ⟨z, List.mem_cons_of_mem x hz, hpz, hyz⟩

lemma map_modifyFirst (g : α → β) (p : α → Bool) (f : α → α)
    (hf : ∀ x, g (f x) = g x) (l : List α) :
    (modifyFirst p f l).map g = l.map g := by
  induction l with
  | nil => rfl
  | cons x xs ih => by_cases hx : p x <;> simp [modifyFirst_cons, hx, hf, ih]

lemma countP_modifyFirst_le (q p : α → Bool) (f : α → α)
    (hf : ∀ x, q (f x) = true → q x = true) (l : List α) :
    (modifyFirst p f l).countP q ≤ l.countP q := by
  induction l with
  | nil => simp [modifyFirst]
  | cons x xs ih =>
    rw [modifyFirst_cons]
    by_cases hx : p x = true
    · rw [if_pos hx, List.countP_cons, List.countP_cons]
      have hle : (if q (f x) = true then 1 else 0) ≤ (if q x = true then 1 else 0) := by
        by_cases hq : q (f x) = true
        · simp [hq, hf x hq]
        · simp [hq]
      omega
    · rw [if_neg hx, List.countP_cons, List.countP_cons]
      have := ih
      omega

/- ── C1 ────────────────────────────────────────────────────────────── -/

lemma mem_get_events_for_date {now target_date : Int} {timeline : List Event}
    {a : AnnEvent} :
    a ∈ get_events_for_date now target_date timeline ↔
      ∃ ev ∈ timeline,
        ¬(effective_end now ev ≤ day_start_dt target_date ∨
          ev.start_time > day_end_dt target_date) ∧
        a = clamp_event now target_date ev := by
  simp only [get_events_for_date, List.mem_filterMap]
  constructor
  · rintro ⟨ev, hev, hsome⟩
    by_cases hc : effective_end now ev ≤ day_start_dt target_date ∨
        ev.start_time > day_end_dt target_date
    · simp [hc] at hsome
    · simp only [hc, if_false, Option.some.injEq] at hsome
      exact ⟨ev, hev, hc, hsome.symm⟩
  · rintro ⟨ev, hev, hc, rfl⟩
    exact ⟨ev, hev, by simp [hc]⟩

/-- C1 counterexample: an event that is active (end_time null) with
start_time ≤ now, queried on the current calendar day (the day containing
now, here day 0 with now exactly 00:00:00), is NOT returned — the claim
that the active event always overlaps the current day, and that an event
starting exactly at 00:00:00 of the day is always included, fails at the
midnight instant, where the effective end (= now) equals the day start. -/
theorem C1_counterexample :
    ev_midnight.end_time = none
    ∧ ev_midnight.start_time ≤ (0 : Int)
    ∧ day_start_dt 0 ≤ (0 : Int)
    ∧ (0 : Int) ≤ day_end_dt 0
    ∧ ev_midnight.start_time = day_start_dt 0
    ∧ get_events_for_date 0 0 [ev_midnight] = [] := by
  refine ⟨rfl, ?_, ?_, ?_, ?_, ?_⟩
  · simp [ev_midnight]
  · simp [day_start_dt]
  · norm_num [day_end_dt]
  · simp [ev_midnight, day_start_dt]
  · decide

/-- C1 (amended): get_events_for_date d includes event e iff NOT
(effective_end ≤ d 00:00:00 OR start_time > d 23:59:59); consequently the
active event overlaps the current day whenever now is strictly after the
day start (at the exact midnight instant it is excluded), an event starting
exactly at d 00:00:00 is included provided its effective end is strictly
later than the day start, and an event whose effective end equals d
00:00:00 is excluded. -/
theorem C1_overlap_iff (now target_date : Int) (timeline : List Event)
    (ev : Event) (hmem : ev ∈ timeline) :
    ((∃ a ∈ get_events_for_date now target_date timeline, a.ev = ev) ↔
      ¬(effective_end now ev ≤ day_start_dt target_date ∨
        ev.start_time > day_end_dt target_date))
    ∧ (ev.end_time = none → ev.start_time ≤ now →
        day_start_dt target_date < now → now ≤ day_end_dt target_date →
        ∃ a ∈ get_events_for_date now target_date timeline, a.ev = ev)
    ∧ (ev.start_time = day_start_dt target_date →
        day_start_dt target_date < effective_end now ev →
        ∃ a ∈ get_events_for_date now target_date timeline, a.ev = ev)
    ∧ (effective_end now ev = day_start_dt target_date →
        ¬∃ a ∈ get_events_for_date now target_date timeline, a.ev = ev) := by
  have hiff : (∃ a ∈ get_events_for_date now target_date timeline, a.ev = ev) ↔
      ¬(effective_end now ev ≤ day_start_dt target_date ∨
        ev.start_time > day_end_dt target_date) := by
    constructor
    · rintro ⟨a, ha, hae⟩
      obtain ⟨ev', hev', hc, rfl⟩ := mem_get_events_for_date.mp ha
      have hee : ev' = ev := hae
      exact hee ▸ hc
    · intro hc
      exact ⟨clamp_event now target_date ev,
        mem_get_events_for_date.mpr ⟨ev, hmem, hc, rfl⟩, rfl⟩
  refine ⟨hiff, ?_, ?_, ?_⟩
  · intro hend hstart hlt hle
    refine hiff.mpr ?_
    have he : effective_end now ev = now := by simp [effective_end, hend]
    rw [he]
    simp only [day_start_dt, day_end_dt] at hlt hle ⊢
    omega
  · intro hs hlt
    refine hiff.mpr ?_
    simp only [day_start_dt, day_end_dt] at hs hlt ⊢
    omega
  · intro heq hex
    exact (hiff.mp hex) (Or.inl (le_of_eq heq))

/-- C1 witness: a concrete 01:00-02:00 event on day 0 is returned when day 0
is queried. -/
theorem C1_witness :
    ∃ a ∈ get_events_for_date 10000 0 [ev_hour], a.ev = ev_hour :=
  ((C1_overlap_iff 10000 0 [ev_hour] ev_hour (by simp)).1).mpr (by decide)

/- ── C2 ────────────────────────────────────────────────────────────── -/

/-- C2: every record returned by get_events_for_date carries day_start
clamped to max(start_time, day 00:00:00), day_end clamped to
min(effective_end, next day 00:00:00), the spillover flag set exactly when
the origin date differs from the target day; the per-day duration is
computed from the clamped times and the total duration from the unclamped
times.  Concretely, an event 2026-02-20 22:00:00 → 2026-02-21 03:00:00
(days 20504 and 20505 of the epoch) appears on both days — 120 clamped
minutes and no spillover on the first, 180 clamped minutes, clamped start
at midnight and spillover on the second — has total duration 300 minutes,
and does not appear on 2026-02-22. -/
theorem C2_clamping (now target_date : Int) (timeline : List Event)
    (a : AnnEvent) (ha : a ∈ get_events_for_date now target_date timeline) :
    (a.day_start = max a.ev.start_time (day_start_dt target_date)
    ∧ a.day_end = min (effective_end now a.ev) (day_start_dt (target_date + 1))
    ∧ (a.is_spillover = true ↔ a.ev.date ≠ target_date)
    ∧ get_event_day_duration_minutes a =
        ((a.day_end - a.day_start : Int) : ℚ) / 60
    ∧ get_event_duration_minutes now a.ev =
        ((effective_end now a.ev - a.ev.start_time : Int) : ℚ) / 60)
    ∧ (get_events_for_date (86400 * 20506) 20504 [ev_cross] = [ann_cross_day1]
    ∧ get_events_for_date (86400 * 20506) 20505 [ev_cross] = [ann_cross_day2]
    ∧ get_events_for_date (86400 * 20506) 20506 [ev_cross] = []
    ∧ get_event_day_duration_minutes ann_cross_day1 = 120
    ∧ get_event_day_duration_minutes ann_cross_day2 = 180
    ∧ get_event_duration_minutes (86400 * 20506) ev_cross = 300) := by
  constructor
  · obtain ⟨ev', hev', hc, rfl⟩ := mem_get_events_for_date.mp ha
    have hday : day_end_dt target_date + 1 = day_start_dt (target_date + 1) := by
      simp only [day_end_dt, day_start_dt]; ring
    refine ⟨rfl, ?_, ?_, rfl, rfl⟩
    · simp only [clamp_event, hday]
    · simp only [clamp_event, bne_iff_ne]
  · refine ⟨by decide, by decide, by decide, ?_, ?_, ?_⟩
    · show ((86400 * 20505 - (86400 * 20504 + 79200) : Int) : ℚ) / 60 = 120
      norm_num
    · show ((86400 * 20505 + 10800 - (86400 * 20505) : Int) : ℚ) / 60 = 180
      norm_num
    · show ((86400 * 20505 + 10800 - (86400 * 20504 + 79200) : Int) : ℚ) / 60 = 300
      norm_num

/-- C2 witness: the structural part of C2 applied to the concrete
cross-midnight event on its second day. -/
theorem C2_witness :
    ann_cross_day2.day_start = max ann_cross_day2.ev.start_time (day_start_dt 20505) :=
  (C2_clamping (86400 * 20506) 20505 [ev_cross] ann_cross_day2 (by decide)).1.1

/- ── C3 ────────────────────────────────────────────────────────────── -/

lemma get_active_event_eq_none {tl : List Event} (h : get_active_event tl = none) :
    count_active tl = 0 := by
  rw [count_active, List.countP_eq_zero]
  rw [get_active_event, List.find?_eq_none] at h
  exact h

lemma count_active_end_active (now : Int) :
    ∀ (tl : List Event) (active : Event),
      (tl.map Event.id).Nodup → get_active_event tl = some active →
      count_active tl ≤ 1 → count_active (end_event now active.id tl) = 0 := by
  intro tl
  induction tl with
  | nil => intro active _ hact _; simp [get_active_event] at hact
  | cons x xs ih =>
    intro active hnd hact hle
    by_cases hx : x.end_time.isNone = true
    · have hx' : (fun ev : Event => ev.end_time.isNone) x = true := hx
      rw [get_active_event, List.find?_cons_of_pos xs hx'] at hact
      have hxa : x = active := by simpa using hact
      subst hxa
      have hee : end_event now x.id (x :: xs) =
          { x with end_time := some now } :: xs := by
        simp [end_event, modifyFirst_cons]
      rw [hee]
      have h1 : count_active ({ x with end_time := some now } :: xs) =
          count_active xs := by
        simp [count_active, List.countP_cons]
      have h2 : count_active (x :: xs) = count_active xs + 1 := by
        simp [count_active, List.countP_cons, hx]
      omega
    · have hx' : ¬(fun ev : Event => ev.end_time.isNone) x = true := hx
      rw [get_active_event, List.find?_cons_of_neg xs hx'] at hact
      have hact' : get_active_event xs = some active := hact
      have hmem : active ∈ xs := List.mem_of_find?_eq_some hact'
      have hnd' : (xs.map Event.id).Nodup := (List.nodup_cons.mp hnd).2
      have hx_not : x.id ∉ xs.map Event.id := (List.nodup_cons.mp hnd).1
      have hxid : (x.id == active.id) = false := by
        rw [beq_eq_false_iff_ne]
        intro heq
        exact hx_not (heq ▸ List.mem_map_of_mem Event.id hmem)
      have hle' : count_active xs ≤ 1 := by
        have h2 : count_active (x :: xs) = count_active xs := by
          simp [count_active, List.countP_cons, hx]
        omega
      have hrec := ih active hnd' hact' hle'
      have hee : end_event now active.id (x :: xs) =
          x :: end_event now active.id xs := by
        simp [end_event, modifyFirst_cons, hxid]
      rw [hee]
      have : count_active (x :: end_event now active.id xs) =
          count_active (end_event now active.id xs) := by
        simp [count_active, List.countP_cons, hx]
      omega

lemma count_active_start_event (now today : Int) (newId name : String)
    (tl : List Event) (hnd : (tl.map Event.id).Nodup)
    (hle : count_active tl ≤ 1) :
    count_active (start_event now today newId name tl) = 1 := by
  unfold start_event
  cases hact : get_active_event tl with
  | none =>
    have h0 : count_active tl = 0 := get_active_event_eq_none hact
    rw [count_active] at h0 ⊢
    simp [List.countP_append, h0]
  | some active =>
    have h0 := count_active_end_active now tl active hnd hact hle
    rw [count_active] at h0 ⊢
    simp [List.countP_append, h0]

lemma map_id_end_event (now : Int) (event_id : String) (tl : List Event) :
    (end_event now event_id tl).map Event.id = tl.map Event.id :=
  map_modifyFirst Event.id (fun ev => ev.id == event_id)
    (fun ev => { ev with end_time := some now }) (fun _ => rfl) tl

lemma map_id_start_event (now today : Int) (newId name : String) (tl : List Event) :
    (start_event now today newId name tl).map Event.id =
      tl.map Event.id ++ [newId] := by
  unfold start_event
  cases get_active_event tl <;> simp [map_id_end_event]

/-- C3: starting from a timeline with at most one active (end_time null)
event and distinct ids, every timeline operation preserves the at-most-one
invariant; start_event leaves exactly one active event, and so do two
sequential start_event calls. -/
theorem C3_at_most_one_active (now now2 today today2 : Int)
    (newId name newId2 name2 event_id : String) (ostart oend : Option Int)
    (timeline : List Event)
    (hnd : (timeline.map Event.id).Nodup)
    (hle : count_active timeline ≤ 1) :
    count_active (start_event now today newId name timeline) = 1
    ∧ count_active (end_event now event_id timeline) ≤ 1
    ∧ count_active (delete_event event_id timeline) ≤ 1
    ∧ count_active (edit_event_time event_id ostart oend timeline) ≤ 1
    ∧ (newId ∉ timeline.map Event.id →
        count_active (start_event now2 today2 newId2 name2
          (start_event now today newId name timeline)) = 1) := by
  refine ⟨count_active_start_event now today newId name timeline hnd hle,
    ?_, ?_, ?_, ?_⟩
  · have h : count_active (end_event now event_id timeline) ≤
        count_active timeline := by
      unfold end_event count_active
      exact countP_modifyFirst_le _ _ _ (fun x hq => by simp at hq) timeline
    omega
  · have h : count_active (delete_event event_id timeline) ≤
        count_active timeline := by
      unfold delete_event count_active
      exact List.Sublist.countP_le _ (List.filter_sublist _)
    omega
  · have h : count_active (edit_event_time event_id ostart oend timeline) ≤
        count_active timeline := by
      unfold edit_event_time count_active
      apply countP_modifyFirst_le
      intro x hq
      cases oend <;> cases ostart <;> simp_all
    omega
  · intro hnew
    have hnd2 : ((start_event now today newId name timeline).map Event.id).Nodup := by
      rw [map_id_start_event, List.nodup_append]
      refine ⟨hnd, List.nodup_singleton _, ?_⟩
      intro a ha hb
      simp only [List.mem_singleton] at hb
      exact hnew (hb ▸ ha)
    have hle2 : count_active (start_event now today newId name timeline) ≤ 1 := by
      rw [count_active_start_event now today newId name timeline hnd hle]
    exact count_active_start_event now2 today2 newId2 name2 _ hnd2 hle2

/-- C3 witness: starting an event twice on an initially empty timeline
leaves exactly one active event. -/
theorem C3_witness :
    count_active (start_event 6 0 "n2" "w2" (start_event 5 0 "n1" "w1" [])) = 1 :=
  (C3_at_most_one_active 5 6 0 0 "n1" "w1" "n2" "w2" "x" none none []
    (by simp) (by decide)).2.2.2.2 (by simp)

/- ── C4 ────────────────────────────────────────────────────────────── -/

lemma todo_step_preserves (todos : List Todo) (op : TodoOp)
    (h : ∀ t ∈ todos, done_at_nonnull t = t.done) :
    ∀ t ∈ todo_step todos op, done_at_nonnull t = t.done := by
  cases op with
  | add newId now text priority =>
    intro t ht
    simp only [todo_step, add_todo] at ht
    rcases List.mem_append.mp ht with h1 | h1
    · exact h t h1
    · simp only [List.mem_singleton] at h1
      subst h1
      rfl
  | toggle now todo_id =>
    intro t ht
    simp only [todo_step, toggle_todo] at ht
    rcases mem_modifyFirst _ _ _ t ht with h1 | ⟨x, hx, _, rfl⟩
    · exact h t h1
    · cases hd : x.done <;> simp [done_at_nonnull, hd]
  | edit todo_id text =>
    intro t ht
    simp only [todo_step, edit_todo] at ht
    rcases mem_modifyFirst _ _ _ t ht with h1 | ⟨x, hx, _, rfl⟩
    · exact h t h1
    · have := h x hx
      simpa [done_at_nonnull] using this
  | cycle todo_id =>
    intro t ht
    simp only [todo_step, cycle_priority] at ht
    rcases mem_modifyFirst _ _ _ t ht with h1 | ⟨x, hx, _, rfl⟩
    · exact h t h1
    · have := h x hx
      simpa [done_at_nonnull] using this
  | del todo_id =>
    intro t ht
    simp only [todo_step, delete_todo] at ht
    exact h t (List.mem_filter.mp ht).1
  | purge now purge_days =>
    intro t ht
    simp only [todo_step, purge_old_done_todos] at ht
    by_cases hp : purge_days ≤ 0
    · rw [if_pos hp] at ht
      exact h t ht
    · rw [if_neg hp] at ht
      exact h t (List.mem_filter.mp ht).1

lemma todo_run_inv : ∀ (ops : List TodoOp) (init : List Todo),
    (∀ t ∈ init, done_at_nonnull t = t.done) →
    ∀ t ∈ ops.foldl todo_step init, done_at_nonnull t = t.done := by
  intro ops
  induction ops with
  | nil => intro init h; simpa using h
  | cons op ops ih => intro init h; exact ih _ (todo_step_preserves init op h)

/-- C4: after any sequence of public todo operations starting from a fresh
document, every todo has done_at non-null exactly when done is true;
add_todo appends a pending todo without a done_at key, and toggle_todo
sets done_at to now on the element it flips to done and to explicit null
on the element it flips back to pending. -/
theorem C4_done_at_iff_done (ops : List TodoOp) (now : Int)
    (newId text priority todo_id : String) (todos : List Todo) :
    (∀ t ∈ todo_run ops, done_at_nonnull t = t.done)
    ∧ add_todo newId now text priority todos =
        todos ++ [{ id := newId, text := text, done := false,
                    priority := priority, created_at := now, done_at := none }]
    ∧ (∀ t ∈ toggle_todo now todo_id todos,
        t ∈ todos ∨ ∃ t0 ∈ todos, t0.id = todo_id ∧ t.done = !t0.done ∧
          t.done_at = (if t.done = true then some (some now) else some none)) := by
  refine ⟨todo_run_inv ops [] (by simp), rfl, ?_⟩
  intro t ht
  simp only [toggle_todo] at ht
  rcases mem_modifyFirst _ _ _ t ht with h1 | ⟨x, hx, hpx, rfl⟩
  · exact Or.inl h1
  · refine Or.inr ⟨x, hx, by simpa using hpx, rfl, ?_⟩
    cases hd : x.done <;> simp [hd]

/-- C4 witness: the invariant evaluated on the state reached by an add
followed by a toggle. -/
theorem C4_witness :
    done_at_nonnull
      { id := "a", text := "x", done := true, priority := "medium",
        created_at := 0, done_at := some (some 5) } =
      ({ id := "a", text := "x", done := true, priority := "medium",
         created_at := 0, done_at := some (some 5) } : Todo).done :=
  (C4_done_at_iff_done [TodoOp.add "a" 0 "x" "medium", TodoOp.toggle 5 "a"]
    0 "a" "x" "medium" "a" []).1 _ (by decide)

/- ── C8 ────────────────────────────────────────────────────────────── -/

/-- C8: purge_old_done_todos with window w deletes exactly the done todos
whose done_at (created_at when the key is missing) is strictly before
now minus w days, keeps everything else, and does nothing when w ≤ 0.
Concretely (reference time 1000000, w = 7): a done todo completed 10 days
ago is removed, a done todo completed 1 day ago and a pending todo are
retained, and with w = 0 nothing is removed. -/
theorem C8_purge (now purge_days : Int) (todos : List Todo) :
    (purge_days ≤ 0 → purge_old_done_todos now purge_days todos = (todos, 0))
    ∧ (0 < purge_days →
        (∀ t ∈ todos,
          (t.done = true ∧ opt_lt (done_key t) (now - 86400 * purge_days) = true) →
            t ∉ (purge_old_done_todos now purge_days todos).1)
        ∧ (∀ t ∈ todos,
          ¬(t.done = true ∧ opt_lt (done_key t) (now - 86400 * purge_days) = true) →
            t ∈ (purge_old_done_todos now purge_days todos).1)
        ∧ (∀ t ∈ (purge_old_done_todos now purge_days todos).1, t ∈ todos))
    ∧ purge_old_done_todos 1000000 7 [todo_old_done, todo_new_done, todo_pending_old] =
        ([todo_new_done, todo_pending_old], 1)
    ∧ purge_old_done_todos 1000000 0 [todo_old_done, todo_new_done, todo_pending_old] =
        ([todo_old_done, todo_new_done, todo_pending_old], 0) := by
  refine ⟨?_, ?_, by decide, by decide⟩
  · intro hp
    simp [purge_old_done_todos, hp]
  · intro hp
    have hif : ∀ (r : List Todo × Nat),
        purge_old_done_todos now purge_days todos = r →
        r.1 = todos.filter
          (fun t => !(t.done && opt_lt (done_key t) (now - 86400 * purge_days))) := by
      intro r hr
      rw [purge_old_done_todos, if_neg (by omega)] at hr
      rw [← hr]
    have heq := hif _ rfl
    refine ⟨?_, ?_, ?_⟩
    · intro t ht ⟨hdone, hlt⟩ hmem
      rw [heq] at hmem
      have := (List.mem_filter.mp hmem).2
      simp [hdone, hlt] at this
    · intro t ht hnot
      rw [heq]
      refine List.mem_filter.mpr ⟨ht, ?_⟩
      simp only [Bool.not_eq_true']
      by_cases hdone : t.done = true
      · by_cases hlt : opt_lt (done_key t) (now - 86400 * purge_days) = true
        · exact absurd ⟨hdone, hlt⟩ hnot
        · simp only [Bool.not_eq_true] at hlt
          simp [hdone, hlt]
      · simp only [Bool.not_eq_true] at hdone
        simp [hdone]
    · intro t ht
      rw [heq] at ht
      exact (List.mem_filter.mp ht).1

/-- C8 witness: the disabled-window branch applied at w = 0. -/
theorem C8_witness :
    purge_old_done_todos 1000000 0 [todo_old_done] = ([todo_old_done], 0) :=
  (C8_purge 1000000 0 [todo_old_done]).1 (by norm_num)

/- ── C5 ────────────────────────────────────────────────────────────── -/

lemma pending_le_trans : ∀ a b c : Todo, pending_le a b = true →
    pending_le b c = true → pending_le a c = true := by
  intro a b c hab hbc
  simp only [pending_le, decide_eq_true_eq] at *
  omega

lemma pending_le_total : ∀ a b : Todo, (pending_le a b || pending_le b a) = true := by
  intro a b
  simp only [pending_le, Bool.or_eq_true, decide_eq_true_eq]
  omega

lemma opt_le_trans : ∀ x y z : Option Int, opt_le x y = true →
    opt_le y z = true → opt_le x z = true := by
  intro x y z hxy hyz
  cases x <;> cases y <;> cases z <;> first
  | (simp_all [opt_le]; omega)
  | simp_all [opt_le]

lemma opt_le_total : ∀ x y : Option Int, (opt_le x y || opt_le y x) = true := by
  intro x y
  cases x <;> cases y <;> first
  | (simp [opt_le]; omega)
  | simp [opt_le]

/-- C5: get_sorted_todos returns the pending todos (sorted ascending by
priority rank — high 0, medium 1, low 2 — then creation time) followed by
the done todos (sorted by done_at descending, created_at when the key is
missing); the result is a permutation of the input, every pending item
precedes every done item, and among pending items the priority ranks are
non-decreasing, so no high-priority item follows a medium or low one. -/
theorem C5_sorted_todos (todos : List Todo) :
    (∃ p d, get_sorted_todos todos = p ++ d
      ∧ (∀ t ∈ p, t.done = false) ∧ (∀ t ∈ d, t.done = true)
      ∧ p.Perm (todos.filter (fun t => !t.done))
      ∧ d.Perm (todos.filter (fun t => t.done))
      ∧ p.Pairwise (fun a b => pending_le a b = true)
      ∧ d.Pairwise (fun a b => opt_le (done_key b) (done_key a) = true))
    ∧ (get_sorted_todos todos).Perm todos
    ∧ ((get_sorted_todos todos).filter (fun t => !t.done)).Pairwise
        (fun a b => priority_order a.priority ≤ priority_order b.priority)
    ∧ priority_order "high" = 0 ∧ priority_order "medium" = 1
    ∧ priority_order "low" = 2 := by
  have hPperm : ((todos.filter (fun t => !t.done)).mergeSort pending_le).Perm
      (todos.filter (fun t => !t.done)) := List.mergeSort_perm _ _
  have hDperm : ((todos.filter (fun t => t.done)).mergeSort
      (fun a b => opt_le (done_key b) (done_key a))).Perm
      (todos.filter (fun t => t.done)) := List.mergeSort_perm _ _
  have hPdone : ∀ t ∈ (todos.filter (fun t => !t.done)).mergeSort pending_le,
      t.done = false := by
    intro t ht
    have := List.mem_filter.mp (hPperm.mem_iff.mp ht)
    simpa using this.2
  have hDdone : ∀ t ∈ (todos.filter (fun t => t.done)).mergeSort
      (fun a b => opt_le (done_key b) (done_key a)), t.done = true := by
    intro t ht
    exact (List.mem_filter.mp (hDperm.mem_iff.mp ht)).2
  have hPsorted := List.sorted_mergeSort pending_le_trans pending_le_total
    (todos.filter (fun t => !t.done))
  have hDsorted := @List.sorted_mergeSort Todo
    (fun a b : Todo => opt_le (done_key b) (done_key a))
    (fun a b c hab hbc => opt_le_trans _ _ _ hbc hab)
    (fun a b => opt_le_total _ _)
    (todos.filter (fun t => t.done))
  have hsplit : get_sorted_todos todos =
      (todos.filter (fun t => !t.done)).mergeSort pending_le ++
      (todos.filter (fun t => t.done)).mergeSort
        (fun a b => opt_le (done_key b) (done_key a)) := rfl
  have hperm : (get_sorted_todos todos).Perm todos := by
    rw [hsplit]
    refine (hPperm.append hDperm).trans ?_
    have h := List.filter_append_perm (fun t => !t.done) todos
    simpa [Bool.not_not] using h
  refine ⟨⟨_, _, hsplit, hPdone, hDdone, hPperm, hDperm, hPsorted, hDsorted⟩,
    hperm, ?_, rfl, rfl, rfl⟩
  have hPf : ((todos.filter (fun t => !t.done)).mergeSort pending_le).filter
      (fun t => !t.done) = (todos.filter (fun t => !t.done)).mergeSort pending_le :=
    List.filter_eq_self.mpr (fun t ht => by simp [hPdone t ht])
  have hDf : ((todos.filter (fun t => t.done)).mergeSort
      (fun a b => opt_le (done_key b) (done_key a))).filter (fun t => !t.done) = [] :=
    List.filter_eq_nil_iff.mpr (fun t ht => by simp [hDdone t ht])
  rw [hsplit, List.filter_append, hPf, hDf, List.append_nil]
  refine hPsorted.imp ?_
  intro a b hab
  simp only [pending_le, decide_eq_true_eq] at hab
  omega

/-- C5 witness: the sorted view of a concrete two-element collection is a
permutation of it. -/
theorem C5_witness :
    (get_sorted_todos [todo_old_done, todo_pending_old]).Perm
      [todo_old_done, todo_pending_old] :=
  (C5_sorted_todos [todo_old_done, todo_pending_old]).2.1

/- ── C6 ────────────────────────────────────────────────────────────── -/

lemma streak_walk_spec : ∀ (n : Nat) (s : List Int) (d : Int) (fuel : Nat),
    n < fuel → (∀ k : Nat, k < n → d - k ∈ s) → d - n ∉ s →
    streak_walk s d fuel = n := by
  intro n
  induction n with
  | zero =>
    intro s d fuel hf hin hout
    cases fuel with
    | zero => omega
    | succ m =>
      have hd : d ∉ s := by simpa using hout
      simp [streak_walk, hd]
  | succ n ih =>
    intro s d fuel hf hin hout
    cases fuel with
    | zero => omega
    | succ m =>
      have hd : d ∈ s := by simpa using hin 0 (Nat.succ_pos n)
      have hrec : streak_walk s (d - 1) m = n := by
        apply ih s (d - 1) m (by omega)
        · intro k hk
          have h := hin (k + 1) (by omega)
          have heq : d - ((k : Int) + 1) = d - 1 - k := by ring
          rw [show ((k + 1 : Nat) : Int) = (k : Int) + 1 by push_cast; ring] at h
          rwa [heq] at h
        · have heq : d - ((n : Int) + 1) = d - 1 - n := by ring
          rw [show ((n + 1 : Nat) : Int) = (n : Int) + 1 by push_cast; ring] at hout
          rwa [heq] at hout
      simp [streak_walk, hd, hrec]

lemma consecutive_le_dedup (s : List Int) (d : Int) (n : Nat)
    (hin : ∀ k : Nat, k < n → d - k ∈ s) : n ≤ s.dedup.length := by
  have hsub : (Finset.range n).image (fun k : Nat => d - (k : Int)) ⊆ s.toFinset := by
    intro x hx
    simp only [Finset.mem_image, Finset.mem_range] at hx
    obtain ⟨k, hk, rfl⟩ := hx
    exact List.mem_toFinset.mpr (hin k hk)
  have hinj : Set.InjOn (fun k : Nat => d - (k : Int)) (Finset.range n) := by
    intro a _ b _ hab
    simp only at hab
    omega
  have hcard := Finset.card_le_card hsub
  rw [Finset.card_image_of_injOn hinj, Finset.card_range] at hcard
  rwa [List.card_toFinset] at hcard

/-- C6: the goal streak is 0 when neither today nor yesterday is checked
in; otherwise it counts the consecutive checked-in days walking backward
from today (when today is checked in) or from yesterday, with no reference
to the goal creation date.  Concretely: check-ins on today..today-4 give 5;
check-ins on today, today-2, today-3 (gap at yesterday) give 1. -/
theorem C6_goal_streak (today : Int) (check_ins : List Int) :
    ((today ∉ check_ins ∧ today - 1 ∉ check_ins) →
      get_goal_streak today check_ins = 0)
    ∧ (today ∈ check_ins → ∀ n : Nat, (∀ k : Nat, k < n → today - k ∈ check_ins) →
        today - n ∉ check_ins → get_goal_streak today check_ins = n)
    ∧ (today ∉ check_ins → today - 1 ∈ check_ins →
        ∀ n : Nat, (∀ k : Nat, k < n → today - 1 - k ∈ check_ins) →
        today - 1 - n ∉ check_ins → get_goal_streak today check_ins = n)
    ∧ get_goal_streak today [today - 4, today - 3, today - 2, today - 1, today] = 5
    ∧ get_goal_streak today [today - 3, today - 2, today] = 1 := by
  have h1 : (today ∉ check_ins ∧ today - 1 ∉ check_ins) →
      get_goal_streak today check_ins = 0 := by
    rintro ⟨ha, hb⟩
    by_cases he : check_ins.isEmpty
    · simp [get_goal_streak, he]
    · simp [get_goal_streak, he, ha, hb]
  have h2 : ∀ (s : List Int), today ∈ s → ∀ n : Nat,
      (∀ k : Nat, k < n → today - k ∈ s) →
      today - n ∉ s → get_goal_streak today s = n := by
    intro s hmem n hin hout
    have hne : s.isEmpty = false := by
      cases s with
      | nil => simp at hmem
      | cons a l => rfl
    have hfuel : n < s.dedup.length + 1 := by
      have := consecutive_le_dedup s today n hin
      omega
    simp only [get_goal_streak, hne, Bool.false_eq_true, if_false, hmem, if_true]
    exact streak_walk_spec n s today _ hfuel hin hout
  have h3 : today ∉ check_ins → today - 1 ∈ check_ins → ∀ n : Nat,
      (∀ k : Nat, k < n → today - 1 - k ∈ check_ins) →
      today - 1 - n ∉ check_ins → get_goal_streak today check_ins = n := by
    intro hnot hmem n hin hout
    have hne : check_ins.isEmpty = false := by
      cases check_ins with
      | nil => simp at hmem
      | cons a l => rfl
    have hfuel : n < check_ins.dedup.length + 1 := by
      have := consecutive_le_dedup check_ins (today - 1) n hin
      omega
    simp only [get_goal_streak, hne, Bool.false_eq_true, if_false, hnot,
      if_false, hmem, if_true]
    exact streak_walk_spec n check_ins (today - 1) _ hfuel hin hout
  refine ⟨h1, h2 check_ins, h3, ?_, ?_⟩
  · apply h2 _ (by simp) 5
    · intro k hk
      simp only [List.mem_cons, List.not_mem_nil, or_false]
      omega
    · simp only [List.mem_cons, List.not_mem_nil, or_false]
      push_neg
      omega
  · apply h2 _ (by simp) 1
    · intro k hk
      simp only [List.mem_cons, List.not_mem_nil, or_false]
      omega
    · simp only [List.mem_cons, List.not_mem_nil, or_false]
      push_neg
      omega

/-- C6 witness: neither today (100) nor yesterday checked in gives streak 0. -/
theorem C6_witness : get_goal_streak 100 [50] = 0 :=
  (C6_goal_streak 100 [50]).1 (by decide)

/- ── C7 ────────────────────────────────────────────────────────────── -/

lemma check_in_goal_append (goal_id : String) (day : Int) :
    ∀ (gs₁ : List Goal), (∀ g ∈ gs₁, (g.id == goal_id) = false) →
    ∀ (gs₂ : List Goal),
    check_in_goal goal_id day (gs₁ ++ gs₂) =
      ((check_in_goal goal_id day gs₂).1,
        gs₁ ++ (check_in_goal goal_id day gs₂).2) := by
  intro gs₁
  induction gs₁ with
  | nil => intro _ gs₂; simp
  | cons g gs ih =>
    intro h gs₂
    have hg := h g (by simp)
    have ih2 := ih (fun g' hg' => h g' (by simp [hg'])) gs₂
    simp only [List.cons_append, check_in_goal, hg, Bool.false_eq_true, if_false]
    simp only [List.append_eq]
    rw [ih2]

lemma check_in_goal_head (goal_id : String) (day : Int) (g : Goal)
    (gs : List Goal) (hid : (g.id == goal_id) = true) :
    check_in_goal goal_id day (g :: gs) =
      if day ∈ g.check_ins then
        (false, { g with check_ins := g.check_ins.erase day } :: gs)
      else
        (true, { g with check_ins :=
          (g.check_ins ++ [day]).mergeSort (fun a b => decide (a ≤ b)) } :: gs) := by
  simp [check_in_goal, hid]

lemma sorted_lt_of_le_nodup {l : List Int}
    (hs : l.Pairwise (fun a b => a ≤ b)) (hn : l.Nodup) : l.Sorted (· < ·) :=
  (hs.and hn).imp (fun hab => lt_of_le_of_ne hab.1 hab.2)

lemma mergeSort_int_sorted (l : List Int) :
    (l.mergeSort (fun a b => decide (a ≤ b))).Pairwise (fun a b : Int => a ≤ b) := by
  have h := @List.sorted_mergeSort Int (fun a b : Int => decide (a ≤ b))
    (fun a b c hab hbc => by simp only [decide_eq_true_eq] at *; omega)
    (fun a b => by simp only [Bool.or_eq_true, decide_eq_true_eq]; omega) l
  exact h.imp (fun hab => by simpa using hab)

/-- C7: for a goal g that is the first id-match in the list, check_in_goal
toggles membership of the given day in its check_ins (other days
untouched), returns the resulting membership boolean, and keeps check_ins
strictly sorted (hence duplicate-free); for a day not yet present, two
successive calls return true then false and restore the goal list exactly. -/
theorem C7_check_in_toggle (day : Int) (gs₁ gs₂ : List Goal) (g : Goal)
    (hfirst : ∀ g' ∈ gs₁, (g'.id == g.id) = false)
    (hsorted : g.check_ins.Sorted (· < ·)) :
    (∃ g2 : Goal,
      (check_in_goal g.id day (gs₁ ++ g :: gs₂)).2 = gs₁ ++ g2 :: gs₂
      ∧ g2.id = g.id
      ∧ (day ∈ g2.check_ins ↔ day ∉ g.check_ins)
      ∧ (∀ x : Int, x ≠ day → (x ∈ g2.check_ins ↔ x ∈ g.check_ins))
      ∧ g2.check_ins.Sorted (· < ·)
      ∧ g2.check_ins.Nodup
      ∧ ((check_in_goal g.id day (gs₁ ++ g :: gs₂)).1 = true ↔
          day ∈ g2.check_ins))
    ∧ (day ∉ g.check_ins →
        (check_in_goal g.id day (gs₁ ++ g :: gs₂)).1 = true
        ∧ (check_in_goal g.id day
            ((check_in_goal g.id day (gs₁ ++ g :: gs₂)).2)).1 = false
        ∧ (check_in_goal g.id day
            ((check_in_goal g.id day (gs₁ ++ g :: gs₂)).2)).2 =
            gs₁ ++ g :: gs₂) := by
  have hnd : g.check_ins.Nodup := hsorted.nodup
  have happ := check_in_goal_append g.id day gs₁ hfirst (g :: gs₂)
  by_cases hday : day ∈ g.check_ins
  · have hhead : check_in_goal g.id day (g :: gs₂) =
        (false, { g with check_ins := g.check_ins.erase day } :: gs₂) := by
      rw [check_in_goal_head g.id day g gs₂ (by simp), if_pos hday]
    constructor
    · refine ⟨{ g with check_ins := g.check_ins.erase day },
        by rw [happ, hhead], rfl, ?_, ?_, ?_, ?_, ?_⟩
      · simp [hnd.mem_erase_iff, hday]
      · intro x hx
        simp [hnd.mem_erase_iff, hx]
      · exact List.Pairwise.sublist (List.erase_sublist _ _) hsorted
      · exact List.Nodup.sublist (List.erase_sublist _ _) hnd
      · rw [happ, hhead]
        simp [hnd.mem_erase_iff]
    · intro hno
      exact absurd hday hno
  · have hhead : check_in_goal g.id day (g :: gs₂) =
        (true, { g with check_ins :=
          (g.check_ins ++ [day]).mergeSort (fun a b => decide (a ≤ b)) } :: gs₂) := by
      rw [check_in_goal_head g.id day g gs₂ (by simp), if_neg hday]
    have hperm : ((g.check_ins ++ [day]).mergeSort
        (fun a b => decide (a ≤ b))).Perm (g.check_ins ++ [day]) :=
      List.mergeSort_perm _ _
    have hmem2 : ∀ x : Int,
        (x ∈ (g.check_ins ++ [day]).mergeSort (fun a b => decide (a ≤ b))) ↔
        (x ∈ g.check_ins ∨ x = day) := by
      intro x
      rw [hperm.mem_iff]
      simp
    have hndapp : (g.check_ins ++ [day]).Nodup := by
      rw [List.nodup_append]
      refine ⟨hnd, List.nodup_singleton _, ?_⟩
      intro x hx hmem
      simp only [List.mem_singleton] at hmem
      exact hday (hmem ▸ hx)
    have hnd2 : ((g.check_ins ++ [day]).mergeSort
        (fun a b => decide (a ≤ b))).Nodup := hperm.nodup_iff.mpr hndapp
    have hle2 := mergeSort_int_sorted (g.check_ins ++ [day])
    have hsort2 := sorted_lt_of_le_nodup hle2 hnd2
    constructor
    · refine ⟨{ g with check_ins :=
          (g.check_ins ++ [day]).mergeSort (fun a b => decide (a ≤ b)) },
        by rw [happ, hhead], rfl, ?_, ?_, hsort2, hnd2, ?_⟩
      · simp [hmem2, hday]
      · intro x hx
        simp [hmem2, hx]
      · rw [happ, hhead]
        simp [hmem2]
    · intro _
      have hmemday : day ∈ ({ g with check_ins :=
          (g.check_ins ++ [day]).mergeSort (fun a b => decide (a ≤ b)) } : Goal).check_ins := by
        simp [hmem2]
      have hhead2 : check_in_goal g.id day
          (({ g with check_ins :=
            (g.check_ins ++ [day]).mergeSort (fun a b => decide (a ≤ b)) } : Goal) :: gs₂) =
          (false, { g with check_ins :=
            ((g.check_ins ++ [day]).mergeSort (fun a b => decide (a ≤ b))).erase day }
            :: gs₂) := by
        rw [check_in_goal_head g.id day _ gs₂ (by simp), if_pos hmemday]
      have happ2 := check_in_goal_append g.id day gs₁ hfirst
        (({ g with check_ins :=
          (g.check_ins ++ [day]).mergeSort (fun a b => decide (a ≤ b)) } : Goal) :: gs₂)
      have hrest : ((g.check_ins ++ [day]).mergeSort
          (fun a b => decide (a ≤ b))).erase day = g.check_ins := by
        have h2 : (g.check_ins ++ [day]).erase day = g.check_ins := by
          rw [List.erase_append_right _ hday]
          simp
        have hperase : (((g.check_ins ++ [day]).mergeSort
            (fun a b => decide (a ≤ b))).erase day).Perm g.check_ins := by
          have hp := hperm.erase day
          rwa [h2] at hp
        have hs1 : (((g.check_ins ++ [day]).mergeSort
            (fun a b => decide (a ≤ b))).erase day).Pairwise (fun a b : Int => a ≤ b) :=
          List.Pairwise.sublist (List.erase_sublist _ _) hle2
        have hs2 : g.check_ins.Pairwise (fun a b : Int => a ≤ b) :=
          hsorted.le_of_lt
        exact List.eq_of_perm_of_sorted hperase hs1 hs2
      refine ⟨by rw [happ, hhead], ?_, ?_⟩
      · rw [happ, hhead]
        show (check_in_goal g.id day (gs₁ ++ _ :: gs₂)).1 = false
        rw [happ2, hhead2]
      · rw [happ, hhead]
        show (check_in_goal g.id day (gs₁ ++ _ :: gs₂)).2 = gs₁ ++ g :: gs₂
        rw [happ2, hhead2]
        show gs₁ ++ ({ g with check_ins := ((g.check_ins ++ [day]).mergeSort
          (fun a b => decide (a ≤ b))).erase day } : Goal) :: gs₂ = gs₁ ++ g :: gs₂
        rw [hrest]

/-- C7 witness: checking in a fresh goal on day 5 returns true; a second
call returns false and restores the goal list. -/
theorem C7_witness :
    (check_in_goal goal_a.id 5 ([] ++ goal_a :: [])).1 = true
    ∧ (check_in_goal goal_a.id 5
        ((check_in_goal goal_a.id 5 ([] ++ goal_a :: [])).2)).1 = false
    ∧ (check_in_goal goal_a.id 5
        ((check_in_goal goal_a.id 5 ([] ++ goal_a :: [])).2)).2 =
        [] ++ goal_a :: [] :=
  (C7_check_in_toggle 5 [] [] goal_a (by simp) (by simp [goal_a])).2 (by decide)

/- ── C9 ────────────────────────────────────────────────────────────── -/

lemma check_in_goal_not_found (goal_id : String) (day : Int) :
    ∀ (goals : List Goal), (∀ g ∈ goals, (g.id == goal_id) = false) →
      check_in_goal goal_id day goals = (false, goals) := by
  intro goals
  induction goals with
  | nil => intro _; rfl
  | cons g gs ih =>
    intro h
    have hg := h g (by simp)
    have := ih (fun g' hg' => h g' (by simp [hg']))
    simp [check_in_goal, hg, this]

/-- C9: every mutating operation called with an id matching no record of
its collection leaves the collection unchanged (and raises nothing — all
modelled operations are total): toggle/edit/cycle-priority/delete on
todos, edit/delete on journal entries, delete on moods,
edit/check-in/delete on goals, end/edit-time/delete on timeline events. -/
theorem C9_missing_id_noop (now day : Int)
    (todo_id entry_id mood_id goal_id event_id text content : String)
    (otitle odesc : Option String) (ostart oend : Option Int)
    (todos : List Todo) (journal : List JournalEntry) (moods : List Mood)
    (goals : List Goal) (timeline : List Event)
    (ht : todo_id ∉ todos.map Todo.id)
    (hj : entry_id ∉ journal.map JournalEntry.id)
    (hm : mood_id ∉ moods.map Mood.id)
    (hg : goal_id ∉ goals.map Goal.id)
    (he : event_id ∉ timeline.map Event.id) :
    toggle_todo now todo_id todos = todos
    ∧ edit_todo todo_id text todos = todos
    ∧ cycle_priority todo_id todos = todos
    ∧ delete_todo todo_id todos = todos
    ∧ edit_journal_entry entry_id content journal = journal
    ∧ delete_journal_entry entry_id journal = journal
    ∧ delete_mood mood_id moods = moods
    ∧ edit_goal goal_id otitle odesc goals = goals
    ∧ check_in_goal goal_id day goals = (false, goals)
    ∧ delete_goal goal_id goals = goals
    ∧ end_event now event_id timeline = timeline
    ∧ edit_event_time event_id ostart oend timeline = timeline
    ∧ delete_event event_id timeline = timeline := by
  have hT : ∀ t ∈ todos, (t.id == todo_id) = false := fun t htm =>
    beq_eq_false_iff_ne.mpr (fun hh => ht (hh ▸ List.mem_map_of_mem Todo.id htm))
  have hJ : ∀ e ∈ journal, (e.id == entry_id) = false := fun e hem =>
    beq_eq_false_iff_ne.mpr
      (fun hh => hj (hh ▸ List.mem_map_of_mem JournalEntry.id hem))
  have hM : ∀ m ∈ moods, (m.id == mood_id) = false := fun m hmm =>
    beq_eq_false_iff_ne.mpr (fun hh => hm (hh ▸ List.mem_map_of_mem Mood.id hmm))
  have hG : ∀ g ∈ goals, (g.id == goal_id) = false := fun g hgm =>
    beq_eq_false_iff_ne.mpr (fun hh => hg (hh ▸ List.mem_map_of_mem Goal.id hgm))
  have hE : ∀ ev ∈ timeline, (ev.id == event_id) = false := fun ev hevm =>
    beq_eq_false_iff_ne.mpr (fun hh => he (hh ▸ List.mem_map_of_mem Event.id hevm))
  refine ⟨modifyFirst_eq_self hT, modifyFirst_eq_self hT, modifyFirst_eq_self hT,
    ?_, modifyFirst_eq_self hJ, ?_, ?_, modifyFirst_eq_self hG,
    check_in_goal_not_found goal_id day goals hG, ?_,
    modifyFirst_eq_self hE, modifyFirst_eq_self hE, ?_⟩
  · exact List.filter_eq_self.mpr
      (fun t htm => bne_iff_ne.mpr
        (fun hh => ht (hh ▸ List.mem_map_of_mem Todo.id htm)))
  · exact List.filter_eq_self.mpr
      (fun e hem => bne_iff_ne.mpr
        (fun hh => hj (hh ▸ List.mem_map_of_mem JournalEntry.id hem)))
  · exact List.filter_eq_self.mpr
      (fun m hmm => bne_iff_ne.mpr
        (fun hh => hm (hh ▸ List.mem_map_of_mem Mood.id hmm)))
  · exact List.filter_eq_self.mpr
      (fun g hgm => bne_iff_ne.mpr
        (fun hh => hg (hh ▸ List.mem_map_of_mem Goal.id hgm)))
  · exact List.filter_eq_self.mpr
      (fun ev hevm => bne_iff_ne.mpr
        (fun hh => he (hh ▸ List.mem_map_of_mem Event.id hevm)))

/-- C9 witness: toggling an unknown todo id on a one-element collection is
a no-op. -/
theorem C9_witness :
    toggle_todo 0 "zz" [todo_pending_old] = [todo_pending_old] :=
  (C9_missing_id_noop 0 0 "zz" "zz" "zz" "zz" "zz" "x" "c" none none none none
    [todo_pending_old] [journal_a] [mood_a] [goal_a] [ev_hour]
    (by decide) (by decide) (by decide) (by decide) (by decide)).1

/- ── C10 ───────────────────────────────────────────────────────────── -/

/-- C10: check_in_goal with an id matching no goal returns false and leaves
the goals unchanged — the same boolean a successful uncheck (removing a
present day from the first id-matching goal) returns, so the two outcomes
are indistinguishable from the returned boolean alone. -/
theorem C10_check_in_unknown_id (day : Int) (goal_id : String)
    (goals gs₁ gs₂ : List Goal) (g : Goal)
    (hg : goal_id ∉ goals.map Goal.id)
    (hfirst : ∀ g' ∈ gs₁, (g'.id == g.id) = false)
    (hday : day ∈ g.check_ins) :
    check_in_goal goal_id day goals = (false, goals)
    ∧ (check_in_goal g.id day (gs₁ ++ g :: gs₂)).1 = false := by
  constructor
  · exact check_in_goal_not_found goal_id day goals
      (fun g' hg' => beq_eq_false_iff_ne.mpr
        (fun hh => hg (hh ▸ List.mem_map_of_mem Goal.id hg')))
  · rw [check_in_goal_append g.id day gs₁ hfirst (g :: gs₂),
      check_in_goal_head g.id day g gs₂ (by simp), if_pos hday]

/-- C10 witness: an unknown goal id returns false with the collection
unchanged; unchecking the present day 5 on goal_b also returns false. -/
theorem C10_witness :
    check_in_goal "zz" 5 [goal_b] = (false, [goal_b])
    ∧ (check_in_goal goal_b.id 5 ([] ++ goal_b :: [])).1 = false :=
  C10_check_in_unknown_id 5 "zz" [goal_b] [] [] goal_b
    (by decide) (by simp) (by decide)

end LazyTool
